import Mathlib

/-!
Verification of the runtime input-coercion layer of graphql-core-next
(`src/graphql/execution/values.py`): `get_variable_values`,
`get_argument_values` and `get_directive_values`, shallowly embedded in Lean.

External collaborators (`type_from_ast`, `is_input_type`, `coerce_value`,
`value_from_ast`, `inspect`, `print_ast`), which live outside the file under
study, are abstracted as fields of an environment record `Env`; the control
flow of `values.py` itself is translated branch for branch.
-/

set_option autoImplicit false

namespace Values

/-- Runtime values handed to the coercion layer.  `vnull` models Python
`None`, `vinvalid` models the distinguished `INVALID` sentinel used by
`value_from_ast` and by argument defaults (`default_value is not INVALID`). -/
inductive Value where
  | vnull
  | vbool (b : Bool)
  | vint (n : Int)
  | vstr (s : String)
  | vinvalid
deriving DecidableEq, Repr

/-- An AST type node (`var_def_node.type`); opaque to this layer, only
printed and resolved through the environment. -/
abbrev TypeNode := String

/-- A resolved GraphQL type, as far as this layer inspects it:
`is_non_null_type` only looks at the outermost wrapper. -/
inductive GType where
  | named (name : String)
  | listOf (inner : GType)
  | nonNull (inner : GType)
deriving DecidableEq, Repr

/-- An AST value node: a variable reference (`VariableNode`), an explicit
null literal (`NullValueNode`), or any other literal, opaque here. -/
inductive ValueNode where
  | variableNode (name : String)
  | nullValueNode
  | literalNode (tag : String)
deriving DecidableEq, Repr

/-- An AST argument node `{name, value}`. -/
structure ArgumentNode where
  name : String
  value : ValueNode
deriving DecidableEq, Repr

/-- A `FieldNode` or `DirectiveNode`: the invocation node handed to
`get_argument_values`, exposing an optional ordered argument list. -/
structure ArgHostNode where
  name : String
  arguments : Option (List ArgumentNode)
deriving DecidableEq, Repr

/-- A variable definition AST node: variable name, declared type node and
optional default literal. -/
structure VariableDefinitionNode where
  varName : String
  typeNode : TypeNode
  default_value : Option ValueNode
deriving DecidableEq, Repr

/-- Source location attached to a `GraphQLError` (the `node` argument of the
`GraphQLError` constructor in the source). -/
inductive ErrLoc where
  | atTypeNode (t : TypeNode)
  | atVarDef (d : VariableDefinitionNode)
  | atValueNode (v : ValueNode)
  | atNode (n : ArgHostNode)
  | external (tag : String)
deriving DecidableEq, Repr

/-- A `GraphQLError`: message plus source location. -/
structure GraphQLError where
  message : String
  loc : ErrLoc
deriving DecidableEq, Repr

/-- Result record of the `coerce_value` collaborator: a list of errors
(empty meaning success) and the coerced value. -/
structure CoercedValue where
  errors : List GraphQLError
  value : Value
deriving DecidableEq, Repr

/-- The external collaborators imported by `values.py`, abstracted as an
environment: type resolution against the schema, input-type classification,
printing/inspection, literal conversion and value coercion. -/
structure Env where
  type_from_ast : TypeNode → Option GType
  is_input_type_of : GType → Bool
  print_ast : TypeNode → String
  print_value_ast : ValueNode → String
  inspect_type : GType → String
  inspect_value : Value → String
  print_type : GType → String
  value_from_ast : ValueNode → GType → Option (String → Option Value) → Value
  coerce_value : Value → GType → VariableDefinitionNode → CoercedValue

/-- `is_input_type` as called in the source on an `Optional[GraphQLType]`:
`None` is never an input type. -/
def is_input_type (env : Env) : Option GType → Bool
  | none => false
  | some t => env.is_input_type_of t

/-- `is_non_null_type`: outermost wrapper test. -/
def is_non_null_type : GType → Bool
  | GType.nonNull _ => true
  | _ => false

/-- The single-quote character, used in every error message of the source. -/
def sq : String := String.singleton (Char.ofNat 39)

/-- Wrap a string in single quotes. -/
def quoted (s : String) : String := sq ++ s ++ sq

/-- The common message head naming a variable: `Variable` + quote + `$x` + quote. -/
def varHeader (var_name : String) : String :=
  "Variable " ++ quoted ("$" ++ var_name)

/-- Error for a variable whose declared type is not a usable input type
(values.py lines 50-61). -/
def notInputTypeError (env : Env) (d : VariableDefinitionNode) : GraphQLError :=
  { message := varHeader d.varName ++ " expected value of type "
      ++ quoted (env.print_ast d.typeNode)
      ++ " which cannot be used as an input type.",
    loc := ErrLoc.atTypeNode d.typeNode }

/-- Error for a missing required variable (values.py lines 71-79). -/
def requiredVarError (env : Env) (d : VariableDefinitionNode) (var_type : GType) :
    GraphQLError :=
  { message := varHeader d.varName ++ " of required type "
      ++ quoted (env.inspect_type var_type) ++ " was not provided.",
    loc := ErrLoc.atVarDef d }

/-- Error for an explicit null supplied to a non-null variable
(values.py lines 83-91). -/
def nullVarError (env : Env) (d : VariableDefinitionNode) (var_type : GType) :
    GraphQLError :=
  { message := varHeader d.varName ++ " of non-null type "
      ++ quoted (env.inspect_type var_type) ++ " must not be null.",
    loc := ErrLoc.atVarDef d }

/-- The prefix prepended to every nested coercion error message
(values.py lines 96-100): the quoted variable name, then
` got invalid value <inspect(v)>; `. -/
def gotInvalidPre (env : Env) (var_name : String) (value : Value) : String :=
  varHeader var_name ++ " got invalid value " ++ env.inspect_value value ++ "; "

/-- Python-dict style insertion into an association list: overwrite in place
when the key is present, append otherwise (insertion order preserved). -/
def dinsert {α : Type} (m : List (String × α)) (k : String) (v : α) :
    List (String × α) :=
  if m.any (fun p => p.1 == k) then
    m.map (fun p => if p.1 == k then (k, v) else p)
  else m ++ [(k, v)]

/-- Python-dict style lookup in an association list. -/
def dlookup {α : Type} (m : List (String × α)) (k : String) : Option α :=
  (m.find? (fun p => p.1 == k)).map (fun p => p.2)

/-- One iteration of the loop of `get_variable_values` (values.py lines
47-104), threading the `(errors, coerced_values)` accumulator pair. -/
def processVarDef (env : Env) (inputs : String → Option Value)
    (acc : List GraphQLError × List (String × Value))
    (var_def_node : VariableDefinitionNode) :
    List GraphQLError × List (String × Value) :=
  let errors := acc.1
  let coerced_values := acc.2
  let var_name := var_def_node.varName
  let var_type_opt := env.type_from_ast var_def_node.typeNode
  if !(is_input_type env var_type_opt) then
    (errors ++ [notInputTypeError env var_def_node], coerced_values)
  else
    match var_type_opt with
    | none => (errors, coerced_values)
    | some var_type =>
      match inputs var_name with
      | none =>
        let coerced_values2 :=
          match var_def_node.default_value with
          | some dv =>
              dinsert coerced_values var_name (env.value_from_ast dv var_type none)
          | none => coerced_values
        if is_non_null_type var_type then
          (errors ++ [requiredVarError env var_def_node var_type], coerced_values2)
        else
          (errors, coerced_values2)
      | some value =>
        if value == Value.vnull && is_non_null_type var_type then
          (errors ++ [nullVarError env var_def_node var_type], coerced_values)
        else
          let coerced := env.coerce_value value var_type var_def_node
          if !coerced.errors.isEmpty then
            (errors ++ coerced.errors.map (fun e =>
                { e with message := gotInvalidPre env var_name value ++ e.message }),
              coerced_values)
          else
            (errors, dinsert coerced_values var_name coerced.value)

/-- The full loop of `get_variable_values`, starting from empty accumulators. -/
def gvv_loop (env : Env) (var_def_nodes : List VariableDefinitionNode)
    (inputs : String → Option Value) :
    List GraphQLError × List (String × Value) :=
  var_def_nodes.foldl (processVarDef env inputs) ([], [])

/-- Return type of `get_variable_values`: either a non-empty error list or a
coerced value map, never both. -/
inductive CoercedVariableValues where
  | errs (errors : List GraphQLError)
  | values (coerced : List (String × Value))
deriving DecidableEq, Repr

/-- `get_variable_values` (values.py lines 34-106): run the loop, then
`return errors or coerced_values`. -/
def get_variable_values (env : Env) (var_def_nodes : List VariableDefinitionNode)
    (inputs : String → Option Value) : CoercedVariableValues :=
  if (gvv_loop env var_def_nodes inputs).1.isEmpty then
    CoercedVariableValues.values (gvv_loop env var_def_nodes inputs).2
  else
    CoercedVariableValues.errs (gvv_loop env var_def_nodes inputs).1

/-- The errors contributed by one variable definition, read off the branches
of `processVarDef`; independent of the accumulator state. -/
def defErrors (env : Env) (inputs : String → Option Value)
    (d : VariableDefinitionNode) : List GraphQLError :=
  let var_type_opt := env.type_from_ast d.typeNode
  if !(is_input_type env var_type_opt) then [notInputTypeError env d]
  else
    match var_type_opt with
    | none => []
    | some var_type =>
      match inputs d.varName with
      | none =>
        if is_non_null_type var_type then [requiredVarError env d var_type] else []
      | some value =>
        if value == Value.vnull && is_non_null_type var_type then
          [nullVarError env d var_type]
        else
          let coerced := env.coerce_value value var_type d
          if !coerced.errors.isEmpty then
            coerced.errors.map (fun e =>
              { e with message := gotInvalidPre env d.varName value ++ e.message })
          else []

/-- The map entry contributed by one variable definition under its own name,
read off the branches of `processVarDef`; `none` when no entry is stored. -/
def defEntry (env : Env) (inputs : String → Option Value)
    (d : VariableDefinitionNode) : Option Value :=
  let var_type_opt := env.type_from_ast d.typeNode
  if !(is_input_type env var_type_opt) then none
  else
    match var_type_opt with
    | none => none
    | some var_type =>
      match inputs d.varName with
      | none =>
        match d.default_value with
        | some dv => some (env.value_from_ast dv var_type none)
        | none => none
      | some value =>
        if value == Value.vnull && is_non_null_type var_type then none
        else
          let coerced := env.coerce_value value var_type d
          if !coerced.errors.isEmpty then none else some coerced.value

/-- Apply the map contribution of one variable definition to an accumulator map. -/
def applyVarEntry (env : Env) (inputs : String → Option Value)
    (m : List (String × Value)) (d : VariableDefinitionNode) :
    List (String × Value) :=
  match defEntry env inputs d with
  | some v => dinsert m d.varName v
  | none => m

theorem processVarDef_eq (env : Env) (inputs : String → Option Value)
    (acc : List GraphQLError × List (String × Value))
    (d : VariableDefinitionNode) :
    processVarDef env inputs acc d =
      (acc.1 ++ defErrors env inputs d, applyVarEntry env inputs acc.2 d) := by
  unfold processVarDef defErrors applyVarEntry defEntry
  cases htfa : env.type_from_ast d.typeNode with
  | none => simp [is_input_type]
  | some var_type =>
    simp only [is_input_type]
    cases hin : env.is_input_type_of var_type with
    | false => simp
    | true =>
      simp only [Bool.not_true, Bool.false_eq_true, if_false]
      cases hinp : inputs d.varName with
      | none =>
        cases hdv : d.default_value with
        | none => cases hnn : is_non_null_type var_type <;> simp [hnn]
        | some dv => cases hnn : is_non_null_type var_type <;> simp [hnn]
      | some value =>
        cases hnull : (value == Value.vnull && is_non_null_type var_type) with
        | true =>
          rw [Bool.and_eq_true, beq_iff_eq] at hnull
          simp [hnull.1, hnull.2]
        | false =>
          have hnot : ¬(value = Value.vnull ∧ is_non_null_type var_type = true) := by
            intro hc
            rw [hc.1, hc.2] at hnull
            simp at hnull
          cases hce : (env.coerce_value value var_type d).errors.isEmpty with
          | true =>
            rw [List.isEmpty_iff] at hce
            simp [hnot, hce]
          | false =>
            have hne : (env.coerce_value value var_type d).errors ≠ [] := by
              intro hc; rw [← List.isEmpty_iff] at hc; rw [hce] at hc; cases hc
            simp [hnot, hne]

theorem gvv_loop_errors (env : Env) (inputs : String → Option Value)
    (defs : List VariableDefinitionNode)
    (es : List GraphQLError) (m : List (String × Value)) :
    (defs.foldl (processVarDef env inputs) (es, m)).1 =
      es ++ (defs.map (defErrors env inputs)).flatten := by
  induction defs generalizing es m with
  | nil => simp
  | cons d rest ih =>
    simp only [List.foldl_cons, processVarDef_eq, List.map_cons, List.flatten]
    rw [ih]
    simp [List.append_assoc]

theorem dlookup_nil {α : Type} (k : String) : dlookup ([] : List (String × α)) k = none := rfl

theorem dinsert_overwrite {α : Type} (m : List (String × α)) (k : String) (v : α)
    (h : m.any (fun p => p.1 == k) = true) :
    dinsert m k v = m.map (fun p => if p.1 == k then (k, v) else p) := by
  unfold dinsert
  rw [h]
  simp

theorem dinsert_append {α : Type} (m : List (String × α)) (k : String) (v : α)
    (h : m.any (fun p => p.1 == k) = false) :
    dinsert m k v = m ++ [(k, v)] := by
  unfold dinsert
  rw [h]
  simp

theorem find?_map_overwrite_self {α : Type} (k : String) (v : α)
    (m : List (String × α)) (h : m.any (fun p => p.1 == k) = true) :
    (m.map (fun p => if p.1 == k then (k, v) else p)).find? (fun p => p.1 == k) =
      some (k, v) := by
  induction m with
  | nil => cases h
  | cons p rest ih =>
    cases hpk : (p.1 == k) with
    | true =>
      have hhead : (if (p.1 == k) = true then (k, v) else p) = (k, v) := if_pos hpk
      rw [List.map_cons, hhead, List.find?_cons_of_pos]
      simp
    | false =>
      have hrest : rest.any (fun p => p.1 == k) = true := by
        rw [List.any_cons, hpk] at h
        simpa using h
      have hhead : (if (p.1 == k) = true then (k, v) else p) = p := if_neg (by simp [hpk])
      rw [List.map_cons, hhead, List.find?_cons_of_neg _ (by simp [hpk])]
      exact ih hrest

theorem dlookup_dinsert_self {α : Type} (m : List (String × α)) (k : String) (v : α) :
    dlookup (dinsert m k v) k = some v := by
  cases hany : m.any (fun p => p.1 == k) with
  | true =>
    rw [dinsert_overwrite m k v hany]
    unfold dlookup
    rw [find?_map_overwrite_self k v m hany]
    rfl
  | false =>
    rw [dinsert_append m k v hany]
    unfold dlookup
    have hnone : m.find? (fun p => p.1 == k) = none := by
      rw [List.find?_eq_none]
      intro p hp hpk
      have hc : m.any (fun p => p.1 == k) = true := List.any_eq_true.mpr ⟨p, hp, hpk⟩
      rw [hany] at hc
      cases hc
    rw [List.find?_append, hnone]
    simp

theorem find?_map_overwrite {α : Type} (k k2 : String) (v : α) (h : k2 ≠ k)
    (m : List (String × α)) :
    (m.map (fun p => if p.1 == k then (k, v) else p)).find? (fun p => p.1 == k2) =
      m.find? (fun p => p.1 == k2) := by
  induction m with
  | nil => rfl
  | cons p rest ih =>
    cases hpk : (p.1 == k) with
    | true =>
      have hp1 : p.1 = k := by simpa using hpk
      have hk2 : (k == k2) = false := by simpa using (Ne.symm h)
      simp only [List.map_cons, hpk, if_true, List.find?_cons, hk2, hp1]
      simpa [hk2] using ih
    | false =>
      simp only [List.map_cons, hpk, if_false, List.find?_cons]
      cases hpk2 : (p.1 == k2) with
      | true => simp [hpk2]
      | false => simpa [hpk2] using ih

theorem dlookup_dinsert_ne {α : Type} (m : List (String × α)) (k k2 : String) (v : α)
    (h : k2 ≠ k) : dlookup (dinsert m k v) k2 = dlookup m k2 := by
  cases hany : m.any (fun p => p.1 == k) with
  | true =>
    rw [dinsert_overwrite m k v hany]
    unfold dlookup
    rw [find?_map_overwrite k k2 v h m]
  | false =>
    rw [dinsert_append m k v hany]
    unfold dlookup
    rw [List.find?_append]
    cases hfind : m.find? (fun p => p.1 == k2) with
    | some p => simp [hfind]
    | none =>
      have hk2 : ((k, v).1 == k2) = false := by simpa using (Ne.symm h)
      simp [hfind, hk2]

theorem dlookup_fold_frame (env : Env) (inputs : String → Option Value)
    (defs : List VariableDefinitionNode) (m : List (String × Value)) (k : String)
    (h : ∀ d ∈ defs, d.varName ≠ k) :
    dlookup (defs.foldl (applyVarEntry env inputs) m) k = dlookup m k := by
  induction defs generalizing m with
  | nil => rfl
  | cons d rest ih =>
    simp only [List.foldl_cons]
    rw [ih _ (fun d2 hd2 => h d2 (List.mem_cons_of_mem d hd2))]
    unfold applyVarEntry
    cases defEntry env inputs d with
    | some v =>
      exact dlookup_dinsert_ne m d.varName k v (Ne.symm (h d (List.mem_cons_self d rest)))
    | none => rfl

theorem dlookup_fold_isSome (env : Env) (inputs : String → Option Value)
    (defs : List VariableDefinitionNode) (m : List (String × Value)) (k : String) :
    (dlookup (defs.foldl (applyVarEntry env inputs) m) k).isSome = true →
    (dlookup m k).isSome = true ∨ k ∈ defs.map (fun d => d.varName) := by
  induction defs generalizing m with
  | nil => intro h; exact Or.inl h
  | cons d rest ih =>
    intro h
    simp only [List.foldl_cons] at h
    rcases ih (applyVarEntry env inputs m d) h with h2 | h2
    · unfold applyVarEntry at h2
      cases he : defEntry env inputs d with
      | none => rw [he] at h2; exact Or.inl h2
      | some v =>
        rw [he] at h2
        by_cases hk : k = d.varName
        · exact Or.inr (by simp [hk])
        · rw [dlookup_dinsert_ne m d.varName k v hk] at h2
          exact Or.inl h2
    · exact Or.inr (by simp [h2])

theorem dlookup_fold_mem (env : Env) (inputs : String → Option Value)
    (defs : List VariableDefinitionNode) (d : VariableDefinitionNode)
    (hd : d ∈ defs)
    (hnodup : (defs.map (fun x => x.varName)).Nodup) :
    dlookup (defs.foldl (applyVarEntry env inputs) []) d.varName =
      defEntry env inputs d := by
  obtain ⟨pre, post, rfl⟩ := List.append_of_mem hd
  have hmap : ((pre ++ d :: post).map fun x => x.varName) =
      (pre.map fun x => x.varName) ++ d.varName :: (post.map fun x => x.varName) := by
    simp
  rw [hmap, List.nodup_middle, List.nodup_cons] at hnodup
  have hnot : d.varName ∉ (pre.map fun x => x.varName) ++ (post.map fun x => x.varName) :=
    hnodup.1
  have hpre : ∀ x ∈ pre, x.varName ≠ d.varName := by
    intro x hx hc
    exact hnot (List.mem_append_left _ (by rw [← hc] at *; exact List.mem_map_of_mem _ hx))
  have hpost : ∀ x ∈ post, x.varName ≠ d.varName := by
    intro x hx hc
    exact hnot (List.mem_append_right _ (by rw [← hc] at *; exact List.mem_map_of_mem _ hx))
  rw [List.foldl_append, List.foldl_cons]
  rw [dlookup_fold_frame env inputs post _ _ hpost]
  have hstep : ∀ (m : List (String × Value)),
      dlookup (applyVarEntry env inputs m d) d.varName =
        match defEntry env inputs d with
        | some v => some v
        | none => dlookup m d.varName := by
    intro m
    unfold applyVarEntry
    cases defEntry env inputs d with
    | some v => exact dlookup_dinsert_self _ _ _
    | none => rfl
  rw [hstep]
  cases he : defEntry env inputs d with
  | some v => rfl
  | none => rw [dlookup_fold_frame env inputs pre _ _ hpre]; rfl

theorem gvv_loop_map (env : Env) (inputs : String → Option Value)
    (defs : List VariableDefinitionNode)
    (es : List GraphQLError) (m : List (String × Value)) :
    (defs.foldl (processVarDef env inputs) (es, m)).2 =
      defs.foldl (applyVarEntry env inputs) m := by
  induction defs generalizing es m with
  | nil => rfl
  | cons d rest ih =>
    simp only [List.foldl_cons, processVarDef_eq]
    exact ih _ _

/-- An argument definition as exposed by `GraphQLField`/`GraphQLDirective`:
declared type, default value (`Value.vinvalid` encodes the `INVALID`
sentinel, i.e. no default declared) and optional output-name alias. -/
structure ArgDef where
  type : GType
  default_value : Value
  out_name : Option String
deriving DecidableEq, Repr

/-- The part of a `GraphQLField` / `GraphQLDirective` that
`get_argument_values` reads: the ordered `args` mapping. -/
structure TypeDefWithArgs where
  args : List (String × ArgDef)
deriving DecidableEq, Repr

/-- A `GraphQLDirective`: name plus argument definitions. -/
structure GraphQLDirective where
  name : String
  args : List (String × ArgDef)
deriving DecidableEq, Repr

/-- An AST node that may carry directives (`ExecutableDefinitionNode`,
`SelectionNode`, ...): only the ordered directive list is read here. -/
structure NodeWithDirective where
  directives : List ArgHostNode
deriving DecidableEq, Repr

/-- `isinstance(node, NullValueNode)`. -/
def isNullValueNode : ValueNode → Bool
  | ValueNode.nullValueNode => true
  | _ => false

/-- The `arg_node_map` dict comprehension of `get_argument_values`
(values.py line 131): name-keyed map over `node.arguments or []`,
later duplicates overwriting earlier ones. -/
def arg_node_map_of (node : ArgHostNode) : List (String × ArgumentNode) :=
  (node.arguments.getD []).foldl (fun m arg => dinsert m arg.name arg) []

/-- Error for a missing required argument (values.py lines 138-143). -/
def argRequiredError (env : Env) (name : String) (arg_type : GType)
    (node : ArgHostNode) : GraphQLError :=
  { message := "Argument " ++ quoted name ++ " of required type "
      ++ quoted (env.print_type arg_type) ++ " was not provided.",
    loc := ErrLoc.atNode node }

/-- Error for an argument fed by a variable that has no runtime value
(values.py lines 147-152). -/
def argVarMissingError (env : Env) (name : String) (arg_type : GType)
    (variable_name : String) (value_node : ValueNode) : GraphQLError :=
  { message := "Argument " ++ quoted name ++ " of required type "
      ++ quoted (env.print_type arg_type) ++ " was provided the variable "
      ++ quoted ("$" ++ variable_name)
      ++ " which was not provided a runtime value.",
    loc := ErrLoc.atValueNode value_node }

/-- Error for a null candidate against a non-null argument type
(values.py lines 157-160). -/
def argNullError (env : Env) (name : String) (arg_type : GType)
    (value_node : ValueNode) : GraphQLError :=
  { message := "Argument " ++ quoted name ++ " of non-null type "
      ++ quoted (env.print_type arg_type) ++ " must not be null.",
    loc := ErrLoc.atValueNode value_node }

/-- Error for a literal the collaborator rejected with the `INVALID`
sentinel (values.py lines 162-169). -/
def argInvalidValueError (env : Env) (name : String) (value_node : ValueNode) :
    GraphQLError :=
  { message := "Argument " ++ quoted name ++ " has invalid value "
      ++ env.print_value_ast value_node ++ ".",
    loc := ErrLoc.atValueNode value_node }

/-- Handling of a variable-fed argument whose variable has no runtime value
(values.py lines 141-153, the `variable_values is None or variable_name not
in variable_values` branch). -/
def missingVarArg (env : Env) (coerced_values : List (String × Value))
    (name : String) (arg_def : ArgDef) (variable_name : String)
    (value_node : ValueNode) : Except GraphQLError (List (String × Value)) :=
  if arg_def.default_value != Value.vinvalid then
    Except.ok (dinsert coerced_values (arg_def.out_name.getD name) arg_def.default_value)
  else if is_non_null_type arg_def.type then
    Except.error (argVarMissingError env name arg_def.type variable_name value_node)
  else
    Except.ok coerced_values

/-- The common tail of the argument loop (values.py lines 157-171): null
check, literal coercion, storage under the output name. -/
def finishArg (env : Env) (variable_values : Option (String → Option Value))
    (coerced_values : List (String × Value)) (name : String) (arg_def : ArgDef)
    (value_node : ValueNode) (is_null : Bool) :
    Except GraphQLError (List (String × Value)) :=
  if is_null && is_non_null_type arg_def.type then
    Except.error (argNullError env name arg_def.type value_node)
  else
    let coerced_value := env.value_from_ast value_node arg_def.type variable_values
    if coerced_value == Value.vinvalid then
      Except.error (argInvalidValueError env name value_node)
    else
      Except.ok (dinsert coerced_values (arg_def.out_name.getD name) coerced_value)

/-- One iteration of the loop of `get_argument_values` (values.py lines
133-171). -/
def coerceOneArg (env : Env) (variable_values : Option (String → Option Value))
    (node : ArgHostNode) (arg_node_map : List (String × ArgumentNode))
    (coerced_values : List (String × Value)) (name : String) (arg_def : ArgDef) :
    Except GraphQLError (List (String × Value)) :=
  let arg_type := arg_def.type
  match dlookup arg_node_map name with
  | none =>
    if arg_def.default_value != Value.vinvalid then
      Except.ok (dinsert coerced_values (arg_def.out_name.getD name) arg_def.default_value)
    else if is_non_null_type arg_type then
      Except.error (argRequiredError env name arg_type node)
    else
      Except.ok coerced_values
  | some argument_node =>
    let value_node := argument_node.value
    let is_null := isNullValueNode value_node
    match value_node with
    | ValueNode.variableNode variable_name =>
      match variable_values with
      | none => missingVarArg env coerced_values name arg_def variable_name value_node
      | some vv =>
        match vv variable_name with
        | none => missingVarArg env coerced_values name arg_def variable_name value_node
        | some v =>
          finishArg env variable_values coerced_values name arg_def value_node
            (v == Value.vnull)
    | _ => finishArg env variable_values coerced_values name arg_def value_node is_null

/-- The loop of `get_argument_values` over the declared argument
definitions: a raised `GraphQLError` aborts the whole call. -/
def coerceArgsLoop (env : Env) (variable_values : Option (String → Option Value))
    (node : ArgHostNode) (arg_node_map : List (String × ArgumentNode)) :
    List (String × ArgDef) → List (String × Value) →
    Except GraphQLError (List (String × Value))
  | [], coerced_values => Except.ok coerced_values
  | (name, arg_def) :: rest, coerced_values =>
    match coerceOneArg env variable_values node arg_node_map coerced_values name arg_def with
    | Except.error e => Except.error e
    | Except.ok acc => coerceArgsLoop env variable_values node arg_node_map rest acc

/-- `get_argument_values` (values.py lines 109-172). -/
def get_argument_values (env : Env) (type_def : TypeDefWithArgs)
    (node : ArgHostNode) (variable_values : Option (String → Option Value)) :
    Except GraphQLError (List (String × Value)) :=
  coerceArgsLoop env variable_values node (arg_node_map_of node) type_def.args []

/-- `get_directive_values` (values.py lines 184-202): scan the directives of the node in order, delegate to `get_argument_values` on the first name
match, otherwise return `None`. -/
def get_directive_values (env : Env) (directive_def : GraphQLDirective)
    (node : NodeWithDirective) (variable_values : Option (String → Option Value)) :
    Except GraphQLError (Option (List (String × Value))) :=
  match node.directives.find? (fun directive => directive.name == directive_def.name) with
  | some directive =>
    (get_argument_values env ⟨directive_def.args⟩ directive variable_values).map some
  | none => Except.ok none

/-- Heap-level model of the nested-error rewriting block (values.py lines
93-102): the store holds the allocated `GraphQLError` objects, lists of
indices stand for Python lists of references.  Rewriting one referenced
error assigns a new `message` to the object in place. -/
def rewriteOne (env : Env) (var_name : String) (value : Value)
    (store : List GraphQLError) (r : Nat) : List GraphQLError :=
  match store[r]? with
  | some e => store.set r { e with message := gotInvalidPre env var_name value ++ e.message }
  | none => store

/-- The whole block: mutate in place every error referenced by the list the
collaborator returned, then extend the accumulated error list with those same
references. -/
def rewrite_coercion_errors (env : Env) (var_name : String) (value : Value)
    (store : List GraphQLError) (coercion_error_refs : List Nat)
    (error_refs : List Nat) : List GraphQLError × List Nat :=
  (coercion_error_refs.foldl (rewriteOne env var_name value) store,
    error_refs ++ coercion_error_refs)

/-- The single-quote character itself. -/
def qc : Char := Char.ofNat 39

/-- A string with no single-quote character; GraphQL names
(`/[_A-Za-z][_0-9A-Za-z]*/`) always satisfy this. -/
def quoteFree (s : String) : Prop := qc ∉ s.data

instance (s : String) : Decidable (quoteFree s) := by
  unfold quoteFree; infer_instance

/-- An error message names variable `v` when it starts with the header
`Variable` + quote + `$v` + quote that every error of `get_variable_values` carries for the
variable of its own iteration. -/
def namesVar (e : GraphQLError) (v : String) : Bool :=
  (varHeader v).data.isPrefixOf e.message.data

/-- The fixed part of the header before the variable name. -/
def headPre : String := "Variable " ++ sq ++ "$"

theorem sq_data : sq.data = [qc] := rfl

theorem varHeader_data (v : String) :
    (varHeader v).data = headPre.data ++ v.data ++ [qc] := by
  unfold varHeader quoted headPre
  simp [String.data_append, sq_data]

theorem quote_terminated_inj (A B l : List Char) (hA : qc ∉ A) (hB : qc ∉ B)
    (h : (A ++ [qc]) <+: (B ++ [qc] ++ l)) : A = B := by
  induction A generalizing B with
  | nil =>
    cases B with
    | nil => rfl
    | cons b B2 =>
      rw [List.nil_append] at h
      have hb : qc = b := (List.cons_prefix_cons.mp h).1
      exact absurd (by rw [hb]; exact List.mem_cons_self b B2) hB
  | cons a A2 ih =>
    cases B with
    | nil =>
      rw [List.nil_append, List.cons_append] at h
      have ha : a = qc := (List.cons_prefix_cons.mp h).1
      exact absurd (by rw [← ha]; exact List.mem_cons_self a A2) hA
    | cons b B2 =>
      rw [List.cons_append] at h
      rw [List.cons_append, List.cons_append] at h
      obtain ⟨hab, h2⟩ := List.cons_prefix_cons.mp h
      have hA2 : qc ∉ A2 := fun hc => hA (List.mem_cons_of_mem a hc)
      have hB2 : qc ∉ B2 := fun hc => hB (List.mem_cons_of_mem b hc)
      rw [hab, ih B2 hA2 hB2 (by simpa using h2)]

theorem namesVar_of_header (e : GraphQLError) (v w : String) (rest : String)
    (he : e.message = varHeader w ++ rest) (hv : quoteFree v) (hw : quoteFree w) :
    namesVar e v = true ↔ v = w := by
  unfold namesVar
  rw [ List.isPrefixOf_iff_prefix, he, String.data_append, varHeader_data,
    varHeader_data]
  constructor
  · intro h
    have h2 : v.data ++ [qc] <+: w.data ++ [qc] ++ rest.data := by
      have h3 := ( List.prefix_append_right_inj headPre.data).mp
        (by simpa [List.append_assoc] using h)
      simpa [List.append_assoc] using h3
    exact String.ext (quote_terminated_inj v.data w.data rest.data hv hw h2)
  · intro h
    rw [h]
    exact ⟨rest.data, by simp⟩

theorem namesVar_self (e : GraphQLError) (w : String) (rest : String)
    (he : e.message = varHeader w ++ rest) : namesVar e w = true := by
  unfold namesVar
  rw [ List.isPrefixOf_iff_prefix, he, String.data_append]
  exact ⟨rest.data, by simp⟩

theorem defErrors_message_shape (env : Env) (inputs : String → Option Value)
    (d : VariableDefinitionNode) :
    ∀ e ∈ defErrors env inputs d, ∃ rest, e.message = varHeader d.varName ++ rest := by
  intro e he
  simp only [defErrors] at he
  cases hii : is_input_type env (env.type_from_ast d.typeNode) with
  | false =>
    rw [hii] at he
    simp only [Bool.not_false, if_true, List.mem_singleton] at he
    refine ⟨" expected value of type " ++ quoted (env.print_ast d.typeNode)
      ++ " which cannot be used as an input type.", ?_⟩
    rw [he]
    unfold notInputTypeError
    simp [String.append_assoc]
  | true =>
    rw [hii] at he
    simp only [Bool.not_true, Bool.false_eq_true, if_false] at he
    cases htfa : env.type_from_ast d.typeNode with
    | none => rw [htfa] at he; simp only [] at he; cases he
    | some var_type =>
      rw [htfa] at he
      simp only [] at he
      cases hinp : inputs d.varName with
      | none =>
        rw [hinp] at he
        simp only [] at he
        cases hnn : is_non_null_type var_type with
        | true =>
          rw [hnn] at he
          simp only [if_true, List.mem_singleton] at he
          refine ⟨" of required type " ++ quoted (env.inspect_type var_type)
            ++ " was not provided.", ?_⟩
          rw [he]
          unfold requiredVarError
          simp [String.append_assoc]
        | false =>
          rw [hnn] at he
          simp only [Bool.false_eq_true, if_false] at he
          cases he
      | some value =>
        rw [hinp] at he
        simp only [] at he
        cases hnull : (value == Value.vnull && is_non_null_type var_type) with
        | true =>
          rw [hnull] at he
          simp only [if_true, List.mem_singleton] at he
          refine ⟨" of non-null type " ++ quoted (env.inspect_type var_type)
            ++ " must not be null.", ?_⟩
          rw [he]
          unfold nullVarError
          simp [String.append_assoc]
        | false =>
          rw [hnull] at he
          simp only [Bool.false_eq_true, if_false] at he
          cases hce : (env.coerce_value value var_type d).errors.isEmpty with
          | true =>
            rw [hce] at he
            simp only [Bool.not_true, Bool.false_eq_true, if_false] at he
            cases he
          | false =>
            rw [hce] at he
            simp only [Bool.not_false, if_true, List.mem_map] at he
            obtain ⟨e0, _, he0⟩ := he
            refine ⟨" got invalid value " ++ env.inspect_value value ++ "; "
              ++ e0.message, ?_⟩
            rw [← he0]
            unfold gotInvalidPre
            simp [String.append_assoc]

theorem countP_defErrors_ne (env : Env) (inputs : String → Option Value)
    (d : VariableDefinitionNode) (v : String) (hv : quoteFree v)
    (hd : quoteFree d.varName) (hne : d.varName ≠ v) :
    (defErrors env inputs d).countP (fun e => namesVar e v) = 0 := by
  rw [List.countP_eq_zero]
  intro e he hc
  obtain ⟨rest, hrest⟩ := defErrors_message_shape env inputs d e he
  have := (namesVar_of_header e v d.varName rest hrest hv hd).mp hc
  exact hne this.symm

theorem countP_flat_zero (env : Env) (inputs : String → Option Value)
    (L : List VariableDefinitionNode) (v : String) (hv : quoteFree v)
    (h : ∀ d ∈ L, quoteFree d.varName ∧ d.varName ≠ v) :
    ((L.map (defErrors env inputs)).flatten).countP (fun e => namesVar e v) = 0 := by
  induction L with
  | nil => rfl
  | cons d rest ih =>
    simp only [List.map_cons, List.flatten_cons, List.countP_append]
    rw [countP_defErrors_ne env inputs d v hv (h d (List.mem_cons_self d rest)).1
      (h d (List.mem_cons_self d rest)).2,
      ih (fun x hx => h x (List.mem_cons_of_mem d hx))]

/-- Printed form of a type, for the concrete test environment. -/
def gtypeStr : GType → String
  | GType.named n => n
  | GType.listOf t => "[" ++ gtypeStr t ++ "]"
  | GType.nonNull t => gtypeStr t ++ "!"

/-- A concrete environment for witnesses and counterexamples: the type nodes
`T` and `T!` resolve to the input type `T` and its non-null wrapper, every
resolved type is an input type, defaults coerce to the integer 7, and value
coercion succeeds on everything except the string `bad`. -/
def envT : Env where
  type_from_ast := fun tn =>
    if tn == "T!" then some (GType.nonNull (GType.named "T"))
    else if tn == "T" then some (GType.named "T")
    else none
  is_input_type_of := fun _ => true
  print_ast := fun tn => tn
  print_value_ast := fun _ => "LIT"
  inspect_type := gtypeStr
  inspect_value := fun _ => "RAW"
  print_type := gtypeStr
  value_from_ast := fun _ _ _ => Value.vint 7
  coerce_value := fun v _ _ =>
    if v == Value.vstr "bad" then
      { errors := [{ message := "expected type T.", loc := ErrLoc.external "cv" }],
        value := Value.vinvalid }
    else { errors := [], value := v }

/-- A non-null variable `$x : T!` that declares a default literal. -/
def dReqDef : VariableDefinitionNode :=
  { varName := "x", typeNode := "T!", default_value := some (ValueNode.literalNode "seven") }

/-- A nullable variable `$x : T` with no default. -/
def dNullable : VariableDefinitionNode :=
  { varName := "x", typeNode := "T", default_value := none }

/-- Modelled from the spec: the `coerce_value` collaborator
(`graphql/utilities/coerce_value.py`, which is not under `src/`) accepts an
explicit null for a nullable input type, succeeding with the null value
itself ("On success, store the coerced value"; a nullable type treats null
as a legal value). -/
def coerceValueAcceptsNull (env : Env) : Prop :=
  ∀ (t : GType) (d : VariableDefinitionNode), is_non_null_type t = false →
    env.coerce_value Value.vnull t d = { errors := [], value := Value.vnull }

/-- C1: on the variable `$x : T!` with a declared default and `x` absent
from the inputs, `get_variable_values` stores the coerced default in the
value map AND records the required-variable error: the second `if` at
values.py line 71 is not an `elif`, so the error is recorded even though a
default was declared, contradicting the claim (the stored default is then
dead, because the non-empty error list is what gets returned). -/
theorem gvv_nonnull_default_records_error :
    gvv_loop envT [dReqDef] (fun _ => none) =
      ([requiredVarError envT dReqDef (GType.nonNull (GType.named "T"))],
        [("x", Value.vint 7)]) := rfl

/-- C2: concrete violation of the exactly-one invariant: after running
`get_variable_values` on `$x : T!` with a default and empty inputs, the
name `x` is present in the error list (one error names it) and in the
coerced value map at the same time. -/
theorem gvv_name_in_both_error_and_map :
    ((gvv_loop envT [dReqDef] (fun _ => none)).1.countP
        (fun e => namesVar e "x") = 1) ∧
    dlookup (gvv_loop envT [dReqDef] (fun _ => none)).2 "x" = some (Value.vint 7) := by
  exact ⟨by decide, by decide⟩

/-- C5: `get_variable_values` returns the accumulated error list exactly
when it is non-empty (discarding every successfully coerced variable), and
returns the completed value map exactly when no error was recorded; the
two outcomes are mutually exclusive constructors. -/
theorem gvv_errors_xor_values (env : Env) (defs : List VariableDefinitionNode)
    (inputs : String → Option Value) :
    (get_variable_values env defs inputs =
        CoercedVariableValues.errs ((defs.map (defErrors env inputs)).flatten) ↔
      (defs.map (defErrors env inputs)).flatten ≠ []) ∧
    (get_variable_values env defs inputs =
        CoercedVariableValues.values (defs.foldl (applyVarEntry env inputs) []) ↔
      (defs.map (defErrors env inputs)).flatten = []) := by
  unfold get_variable_values gvv_loop
  have h1 := gvv_loop_errors env inputs defs [] []
  have h2 := gvv_loop_map env inputs defs [] []
  rw [h1, h2]
  simp only [List.nil_append]
  cases hemp : ((defs.map (defErrors env inputs)).flatten).isEmpty with
  | true =>
    rw [List.isEmpty_iff] at hemp
    simp [hemp]
  | false =>
    have hne : (defs.map (defErrors env inputs)).flatten ≠ [] := by
      intro hc
      rw [← List.isEmpty_iff] at hc
      rw [hemp] at hc
      cases hc
    simp [hne, hemp]

/-- C9: the run of `get_variable_values` is unchanged when the raw inputs
are modified at any key that is not a declared variable name (undeclared
keys are silently ignored), and every key of the produced value map is the
name of some declared variable definition. -/
theorem gvv_undeclared_keys_ignored (env : Env)
    (defs : List VariableDefinitionNode)
    (inputs inputs2 : String → Option Value) (k : String)
    (hagree : ∀ d ∈ defs, inputs d.varName = inputs2 d.varName) :
    gvv_loop env defs inputs = gvv_loop env defs inputs2 ∧
    ((dlookup (gvv_loop env defs inputs).2 k).isSome = true →
      k ∈ defs.map (fun d => d.varName)) := by
  constructor
  · unfold gvv_loop
    have hgen : ∀ (l : List VariableDefinitionNode)
        (acc : List GraphQLError × List (String × Value)),
        (∀ d ∈ l, inputs d.varName = inputs2 d.varName) →
        l.foldl (processVarDef env inputs) acc =
          l.foldl (processVarDef env inputs2) acc := by
      intro l
      induction l with
      | nil => intro acc _; rfl
      | cons d rest ih =>
        intro acc h
        simp only [List.foldl_cons]
        have hd : processVarDef env inputs acc d = processVarDef env inputs2 acc d := by
          simp only [processVarDef]
          rw [h d (List.mem_cons_self d rest)]
        rw [hd]
        exact ih _ (fun x hx => h x (List.mem_cons_of_mem d hx))
    exact hgen defs ([], []) hagree
  · intro h
    unfold gvv_loop at h
    rw [gvv_loop_map env inputs defs [] []] at h
    rcases dlookup_fold_isSome env inputs defs [] k h with h2 | h2
    · cases h2
    · exact h2

/-- Raw inputs carrying a junk key `y` besides the declared `x`. -/
def inputsJunk : String → Option Value :=
  fun k => if k == "x" then some (Value.vint 1) else some (Value.vint 9)

/-- The same inputs with the junk key removed. -/
def inputsClean : String → Option Value :=
  fun k => if k == "x" then some (Value.vint 1) else none

theorem gvv_undeclared_keys_ignored_witness :
    (∀ d ∈ [dNullable], inputsJunk d.varName = inputsClean d.varName) ∧
    gvv_loop envT [dNullable] inputsJunk = gvv_loop envT [dNullable] inputsClean ∧
    ((dlookup (gvv_loop envT [dNullable] inputsJunk).2 "y").isSome = true →
      "y" ∈ [dNullable].map (fun d => d.varName)) := by
  refine ⟨by decide, ?_, ?_⟩
  · exact (gvv_undeclared_keys_ignored envT [dNullable] inputsJunk inputsClean "y"
      (by decide)).1
  · exact (gvv_undeclared_keys_ignored envT [dNullable] inputsJunk inputsClean "y"
      (by decide)).2

/-- C10: a declared nullable variable supplied as an explicit null is
delegated to the coercion collaborator and ends up in the value map bound
to null, an outcome observably distinct from the variable being absent
from the inputs, which leaves the map without an entry for it. -/
theorem gvv_explicit_null_entry (env : Env) (defs : List VariableDefinitionNode)
    (d : VariableDefinitionNode) (t : GType)
    (inputs inputsAbs : String → Option Value)
    (hmem : d ∈ defs) (hnodup : (defs.map (fun x => x.varName)).Nodup)
    (htfa : env.type_from_ast d.typeNode = some t)
    (hii : env.is_input_type_of t = true)
    (hnn : is_non_null_type t = false)
    (hcv : coerceValueAcceptsNull env)
    (hpres : inputs d.varName = some Value.vnull)
    (habs : inputsAbs d.varName = none)
    (hdef : d.default_value = none) :
    defErrors env inputs d = [] ∧
    dlookup (gvv_loop env defs inputs).2 d.varName = some Value.vnull ∧
    dlookup (gvv_loop env defs inputsAbs).2 d.varName = none := by
  have hcvd := hcv t d hnn
  have hentry : defEntry env inputs d = some Value.vnull := by
    simp only [defEntry]
    rw [htfa]
    simp only [is_input_type, hii, Bool.not_true, Bool.false_eq_true, if_false]
    rw [hpres]
    simp only []
    rw [hnn, hcvd]
    simp
  have hentry2 : defEntry env inputsAbs d = none := by
    simp only [defEntry]
    rw [htfa]
    simp only [is_input_type, hii, Bool.not_true, Bool.false_eq_true, if_false]
    rw [habs]
    simp only []
    rw [hdef]
  refine ⟨?_, ?_, ?_⟩
  · simp only [defErrors]
    rw [htfa]
    simp only [is_input_type, hii, Bool.not_true, Bool.false_eq_true, if_false]
    rw [hpres]
    simp only []
    rw [hnn, hcvd]
    simp
  · unfold gvv_loop
    rw [gvv_loop_map env inputs defs [] [],
      dlookup_fold_mem env inputs defs d hmem hnodup, hentry]
  · unfold gvv_loop
    rw [gvv_loop_map env inputsAbs defs [] [],
      dlookup_fold_mem env inputsAbs defs d hmem hnodup, hentry2]

theorem gvv_explicit_null_entry_witness :
    defErrors envT (fun _ => some Value.vnull) dNullable = [] ∧
    dlookup (gvv_loop envT [dNullable] (fun _ => some Value.vnull)).2 "x" =
      some Value.vnull ∧
    dlookup (gvv_loop envT [dNullable] (fun _ => none)).2 "x" = none :=
  gvv_explicit_null_entry envT [dNullable] dNullable (GType.named "T")
    (fun _ => some Value.vnull) (fun _ => none)
    (by decide) (by decide) (by decide) (by decide) (by decide)
    (fun _ _ _ => rfl)
    (by decide) (by decide) (by decide)

/-- A required variable `$lim : T!` with no default. -/
def dVarLim : VariableDefinitionNode :=
  { varName := "lim", typeNode := "T!", default_value := none }

/-- Inputs that omit `lim` and supply an uncoercible value for `x`. -/
def inputsBad : String → Option Value :=
  fun k => if k == "x" then some (Value.vstr "bad") else none

/-- C4: `get_variable_values` accumulates: the error list of a run is the
concatenation of the per-definition error contributions in declaration
order, every definition contributing whatever the state of earlier ones,
and a non-null variable absent from the inputs with no default is named by
exactly one entry of that list, whatever the other variables do. -/
theorem gvv_missing_required_exactly_one (env : Env)
    (inputs : String → Option Value) (defs : List VariableDefinitionNode)
    (d : VariableDefinitionNode) (t : GType)
    (hmem : d ∈ defs)
    (hnodup : (defs.map (fun x => x.varName)).Nodup)
    (hqf : ∀ x ∈ defs, quoteFree x.varName)
    (htfa : env.type_from_ast d.typeNode = some t)
    (hii : env.is_input_type_of t = true)
    (hnn : is_non_null_type t = true)
    (habs : inputs d.varName = none) :
    (gvv_loop env defs inputs).1 = (defs.map (defErrors env inputs)).flatten ∧
    ((gvv_loop env defs inputs).1.countP (fun e => namesVar e d.varName)) = 1 := by
  have hflat : (gvv_loop env defs inputs).1 =
      (defs.map (defErrors env inputs)).flatten := by
    unfold gvv_loop
    rw [gvv_loop_errors env inputs defs [] []]
    simp
  refine ⟨hflat, ?_⟩
  rw [hflat]
  have hqd : quoteFree d.varName := hqf d hmem
  have hde : defErrors env inputs d = [requiredVarError env d t] := by
    simp only [defErrors]
    rw [htfa]
    simp only [is_input_type, hii, Bool.not_true, Bool.false_eq_true, if_false]
    rw [habs]
    simp only []
    rw [hnn]
    simp
  have hone : (defErrors env inputs d).countP (fun e => namesVar e d.varName) = 1 := by
    rw [hde]
    have hn : namesVar (requiredVarError env d t) d.varName = true :=
      namesVar_self _ _ (" of required type " ++ quoted (env.inspect_type t)
        ++ " was not provided.")
        (by unfold requiredVarError; simp [String.append_assoc])
    simp [List.countP_cons, hn]
  obtain ⟨pre, post, hsplit⟩ := List.append_of_mem hmem
  subst hsplit
  have hmapeq : ((pre ++ d :: post).map fun x => x.varName) =
      (pre.map fun x => x.varName) ++ d.varName :: (post.map fun x => x.varName) := by
    simp
  rw [hmapeq, List.nodup_middle, List.nodup_cons] at hnodup
  have hnotmem := hnodup.1
  have hpre0 : ((pre.map (defErrors env inputs)).flatten).countP
      (fun e => namesVar e d.varName) = 0 := by
    refine countP_flat_zero env inputs pre d.varName hqd (fun x hx => ?_)
    refine ⟨hqf x (by simp [hx]), fun hc => ?_⟩
    exact hnotmem (List.mem_append_left _ (by rw [← hc]; exact List.mem_map_of_mem _ hx))
  have hpost0 : ((post.map (defErrors env inputs)).flatten).countP
      (fun e => namesVar e d.varName) = 0 := by
    refine countP_flat_zero env inputs post d.varName hqd (fun x hx => ?_)
    refine ⟨hqf x (by simp [hx]), fun hc => ?_⟩
    exact hnotmem (List.mem_append_right _ (by rw [← hc]; exact List.mem_map_of_mem _ hx))
  rw [List.map_append, List.map_cons, List.flatten_append, List.flatten_cons,
    List.countP_append, List.countP_append, hpre0, hone, hpost0]

theorem gvv_missing_required_exactly_one_witness :
    (gvv_loop envT [dVarLim, dNullable] inputsBad).1 =
      ([dVarLim, dNullable].map (defErrors envT inputsBad)).flatten ∧
    ((gvv_loop envT [dVarLim, dNullable] inputsBad).1.countP
      (fun e => namesVar e "lim")) = 1 :=
  gvv_missing_required_exactly_one envT inputsBad [dVarLim, dNullable] dVarLim
    (GType.nonNull (GType.named "T"))
    (by decide) (by decide) (by decide) (by decide) (by decide) (by decide)
    (by decide)

theorem gvv_errors_xor_values_witness :
    get_variable_values envT [dVarLim] (fun _ => none) =
      CoercedVariableValues.errs
        (([dVarLim].map (defErrors envT (fun _ => none))).flatten) ∧
    get_variable_values envT [dNullable] (fun _ => none) =
      CoercedVariableValues.values
        ([dNullable].foldl (applyVarEntry envT (fun _ => none)) []) :=
  ⟨(gvv_errors_xor_values envT [dVarLim] (fun _ => none)).1.mpr (by decide),
    (gvv_errors_xor_values envT [dNullable] (fun _ => none)).2.mpr (by decide)⟩

theorem foldRewrite_frame (env : Env) (v : String) (val : Value) :
    ∀ (refs : List Nat) (store : List GraphQLError) (r : Nat), r ∉ refs →
      (refs.foldl (rewriteOne env v val) store)[r]? = store[r]? := by
  intro refs
  induction refs with
  | nil => intro store r _; rfl
  | cons r0 rest ih =>
    intro store r h
    simp only [List.foldl_cons]
    rw [ih _ r (fun hc => h (List.mem_cons_of_mem r0 hc))]
    unfold rewriteOne
    cases hs : store[r0]? with
    | none => rfl
    | some e =>
      exact List.getElem?_set_ne
        (fun hc => h (by rw [hc]; exact List.mem_cons_self r rest))

theorem rewriteOne_length (env : Env) (v : String) (val : Value)
    (store : List GraphQLError) (r : Nat) :
    (rewriteOne env v val store r).length = store.length := by
  unfold rewriteOne
  cases store[r]? with
  | none => rfl
  | some e => exact List.length_set store r _

theorem foldRewrite_length (env : Env) (v : String) (val : Value) :
    ∀ (refs : List Nat) (store : List GraphQLError),
      (refs.foldl (rewriteOne env v val) store).length = store.length := by
  intro refs
  induction refs with
  | nil => intro store; rfl
  | cons r0 rest ih =>
    intro store
    simp only [List.foldl_cons]
    rw [ih _, rewriteOne_length]

theorem foldRewrite_get (env : Env) (v : String) (val : Value) :
    ∀ (refs : List Nat) (store : List GraphQLError), refs.Nodup →
      (∀ r ∈ refs, r < store.length) → ∀ r ∈ refs,
      (refs.foldl (rewriteOne env v val) store)[r]? =
        (store[r]?).map (fun e =>
          { e with message := gotInvalidPre env v val ++ e.message }) := by
  intro refs
  induction refs with
  | nil => intro store _ _ r hr; cases hr
  | cons r0 rest ih =>
    intro store hnodup hlt r hr
    simp only [List.foldl_cons]
    have hnd := List.nodup_cons.mp hnodup
    rcases List.mem_cons.mp hr with hr0 | hrmem
    · subst hr0
      rw [foldRewrite_frame env v val rest _ r hnd.1]
      unfold rewriteOne
      have hr0lt : r < store.length := hlt r (List.mem_cons_self r rest)
      rw [List.getElem?_eq_getElem hr0lt]
      simp only []
      rw [List.getElem?_set_self hr0lt]
      simp
    · have hne : r ≠ r0 := fun hc => hnd.1 (hc ▸ hrmem)
      have hlt2 : ∀ x ∈ rest, x < (rewriteOne env v val store r0).length := by
        intro x hx
        rw [rewriteOne_length]
        exact hlt x (List.mem_cons_of_mem r0 hx)
      rw [ih (rewriteOne env v val store r0) hnd.2 hlt2 r hrmem]
      unfold rewriteOne
      cases hs : store[r0]? with
      | none => rfl
      | some e => rw [List.getElem?_set_ne (Ne.symm hne)]

/-- The collaborator-produced error object used by the mutation test. -/
def e0coerce : GraphQLError :=
  { message := "expected type T.", loc := ErrLoc.external "cv" }

/-- C3 counterexample: after the rewriting block runs, the error object the
collaborator produced (heap slot 0) no longer holds its original message — it was
assigned in place — and the reference appended to the error list is that
very slot, not a fresh copy. -/
theorem rewrite_mutates_collaborator_error :
    (rewrite_coercion_errors envT "x" (Value.vstr "bad") [e0coerce] [0] []).1[0]? ≠
      some e0coerce ∧
    (rewrite_coercion_errors envT "x" (Value.vstr "bad") [e0coerce] [0] []).2 = [0] := by
  exact ⟨by decide, rfl⟩

/-- C3 amended: every reported error is the nested error with its message
prefixed by the quoted variable name and ` got invalid value <inspect(v)>; `, but this is
realized by mutating the error objects of the collaborator in place — the same
references are appended to the error list, no copies are allocated, and
objects outside the returned list are untouched. -/
theorem rewrite_coercion_errors_spec (env : Env) (v : String) (val : Value)
    (store : List GraphQLError) (refs errs : List Nat)
    (hnodup : refs.Nodup) (hlt : ∀ r ∈ refs, r < store.length) :
    (rewrite_coercion_errors env v val store refs errs).2 = errs ++ refs ∧
    (rewrite_coercion_errors env v val store refs errs).1.length = store.length ∧
    (∀ r ∈ refs, (rewrite_coercion_errors env v val store refs errs).1[r]? =
      (store[r]?).map (fun e =>
        { e with message := gotInvalidPre env v val ++ e.message })) ∧
    (∀ r, r ∉ refs →
      (rewrite_coercion_errors env v val store refs errs).1[r]? = store[r]?) := by
  refine ⟨rfl, foldRewrite_length env v val refs store, ?_, ?_⟩
  · exact foldRewrite_get env v val refs store hnodup hlt
  · intro r hr
    exact foldRewrite_frame env v val refs store r hr

theorem rewrite_coercion_errors_spec_witness :
    (rewrite_coercion_errors envT "x" (Value.vstr "bad") [e0coerce] [0] [5]).2 =
      [5] ++ [0] ∧
    (rewrite_coercion_errors envT "x" (Value.vstr "bad") [e0coerce] [0] [5]).1[0]? =
      (some e0coerce).map (fun e =>
        { e with message := gotInvalidPre envT "x" (Value.vstr "bad") ++ e.message }) := by
  have h := rewrite_coercion_errors_spec envT "x" (Value.vstr "bad") [e0coerce] [0] [5]
    (by decide) (by decide)
  exact ⟨h.1, h.2.2.1 0 (by decide)⟩

theorem coerceArgsLoop_append (env : Env)
    (vv : Option (String → Option Value)) (node : ArgHostNode)
    (anm : List (String × ArgumentNode)) (l1 l2 : List (String × ArgDef)) :
    ∀ acc, coerceArgsLoop env vv node anm (l1 ++ l2) acc =
      match coerceArgsLoop env vv node anm l1 acc with
      | Except.error e => Except.error e
      | Except.ok acc2 => coerceArgsLoop env vv node anm l2 acc2 := by
  induction l1 with
  | nil => intro acc; rfl
  | cons p rest ih =>
    intro acc
    obtain ⟨name, arg_def⟩ := p
    simp only [List.cons_append, coerceArgsLoop]
    cases coerceOneArg env vv node anm acc name arg_def with
    | error e => rfl
    | ok acc2 => exact ih acc2

/-- C6: `get_argument_values` fails fast: when the declared arguments split
as `pre ++ violating :: post` with every argument of `pre` coercing fine
and the next one raising, the whole call propagates that single error —
whatever `post` contains, so later argument definitions are never coerced
and no partial map is returned. -/
theorem gav_fail_fast (env : Env) (vv : Option (String → Option Value))
    (type_def : TypeDefWithArgs) (node : ArgHostNode)
    (pre post : List (String × ArgDef)) (name : String) (arg_def : ArgDef)
    (acc2 : List (String × Value)) (e : GraphQLError)
    (hargs : type_def.args = pre ++ (name, arg_def) :: post)
    (hpre : coerceArgsLoop env vv node (arg_node_map_of node) pre [] =
      Except.ok acc2)
    (hbad : coerceOneArg env vv node (arg_node_map_of node) acc2 name arg_def =
      Except.error e) :
    get_argument_values env type_def node vv = Except.error e := by
  unfold get_argument_values
  rw [hargs, coerceArgsLoop_append, hpre]
  simp only [coerceArgsLoop]
  rw [hbad]

/-- A field invocation node supplying no arguments. -/
def nodeF : ArgHostNode := { name := "f", arguments := some [] }

/-- A required argument definition (`T!`, no default, no alias). -/
def argReq : ArgDef :=
  { type := GType.nonNull (GType.named "T"), default_value := Value.vinvalid,
    out_name := none }

/-- An optional argument definition with a default. -/
def argOpt : ArgDef :=
  { type := GType.named "T", default_value := Value.vint 3, out_name := none }

theorem gav_fail_fast_witness :
    get_argument_values envT ⟨[("a", argReq), ("b", argOpt)]⟩ nodeF none =
      Except.error (argRequiredError envT "a" (GType.nonNull (GType.named "T")) nodeF) :=
  gav_fail_fast envT none ⟨[("a", argReq), ("b", argOpt)]⟩ nodeF
    [] [("b", argOpt)] "a" argReq [] _
    rfl rfl rfl

/-- C7: an argument fed by a variable reference whose name has no runtime
value (no variable map at all, or the name is not a key of it) takes the
declared default when there is one, raises the required-type error naming
the argument, its type and the variable when the type is non-null, and is
silently skipped otherwise. -/
theorem gav_variable_no_runtime_value (env : Env)
    (variable_values : Option (String → Option Value)) (node : ArgHostNode)
    (anm : List (String × ArgumentNode)) (acc : List (String × Value))
    (name : String) (arg_def : ArgDef) (variable_name : String)
    (argument_node : ArgumentNode)
    (hnode : dlookup anm name = some argument_node)
    (hvar : argument_node.value = ValueNode.variableNode variable_name)
    (hmiss : match variable_values with
      | none => True
      | some vv => vv variable_name = none) :
    (arg_def.default_value ≠ Value.vinvalid →
      coerceOneArg env variable_values node anm acc name arg_def =
        Except.ok (dinsert acc (arg_def.out_name.getD name) arg_def.default_value)) ∧
    (arg_def.default_value = Value.vinvalid → is_non_null_type arg_def.type = true →
      coerceOneArg env variable_values node anm acc name arg_def =
        Except.error (argVarMissingError env name arg_def.type variable_name
          (ValueNode.variableNode variable_name))) ∧
    (arg_def.default_value = Value.vinvalid → is_non_null_type arg_def.type = false →
      coerceOneArg env variable_values node anm acc name arg_def =
        Except.ok acc) := by
  have hstep : coerceOneArg env variable_values node anm acc name arg_def =
      missingVarArg env acc name arg_def variable_name
        (ValueNode.variableNode variable_name) := by
    simp only [coerceOneArg]
    rw [hnode]
    simp only []
    rw [hvar]
    simp only []
    cases variable_values with
    | none => rfl
    | some vv =>
      simp only [] at hmiss
      simp only []
      rw [hmiss]
  refine ⟨?_, ?_, ?_⟩
  · intro h
    rw [hstep]
    simp only [missingVarArg]
    simp [h]
  · intro h1 h2
    rw [hstep]
    simp [missingVarArg, h1, h2]
  · intro h1 h2
    rw [hstep]
    simp [missingVarArg, h1, h2]

/-- A field invocation supplying the argument `a` as the variable `$vid`. -/
def nodeV : ArgHostNode :=
  { name := "f",
    arguments := some [{ name := "a", value := ValueNode.variableNode "vid" }] }

theorem gav_variable_no_runtime_value_witness :
    coerceOneArg envT (some (fun _ => none)) nodeV (arg_node_map_of nodeV) []
      "a" argReq =
      Except.error (argVarMissingError envT "a" (GType.nonNull (GType.named "T"))
        "vid" (ValueNode.variableNode "vid")) :=
  (gav_variable_no_runtime_value envT (some (fun _ => none)) nodeV
    (arg_node_map_of nodeV) [] "a" argReq "vid"
    { name := "a", value := ValueNode.variableNode "vid" }
    (by decide) rfl rfl).2.1 rfl rfl

/-- C8: `get_directive_values` returns the absent marker, never an error,
when no directive on the node bears the name of the definition; and when the
directive list splits as `pre ++ match :: post` with no match in `pre`, it
returns the argument coercion of that first match. -/
theorem gdv_first_match (env : Env) (directive_def : GraphQLDirective)
    (node : NodeWithDirective) (vv : Option (String → Option Value)) :
    ((∀ d ∈ node.directives, d.name ≠ directive_def.name) →
      get_directive_values env directive_def node vv = Except.ok none) ∧
    (∀ pre dir post, node.directives = pre ++ dir :: post →
      (∀ d ∈ pre, d.name ≠ directive_def.name) → dir.name = directive_def.name →
      get_directive_values env directive_def node vv =
        (get_argument_values env ⟨directive_def.args⟩ dir vv).map some) := by
  constructor
  · intro h
    unfold get_directive_values
    have hfind : node.directives.find?
        (fun directive => directive.name == directive_def.name) = none := by
      rw [List.find?_eq_none]
      intro x hx hc
      exact h x hx (by simpa using hc)
    rw [hfind]
  · intro pre dir post hsplit hpre hdir
    unfold get_directive_values
    rw [hsplit]
    have hfpre : pre.find?
        (fun directive => directive.name == directive_def.name) = none := by
      rw [List.find?_eq_none]
      intro x hx hc
      exact hpre x hx (by simpa using hc)
    rw [List.find?_append, hfpre, List.find?_cons_of_pos _ (by simp [hdir])]
    simp

/-- The `@skip` directive applied with no arguments. -/
def dirSkip : ArgHostNode := { name := "skip", arguments := some [] }

/-- A node carrying only `@skip`. -/
def nodeD : NodeWithDirective := { directives := [dirSkip] }

/-- Definition of a `skip` directive with an optional argument. -/
def skipDef : GraphQLDirective := { name := "skip", args := [("if", argOpt)] }

/-- Definition of an `include` directive, not applied on `nodeD`. -/
def includeDef : GraphQLDirective := { name := "include", args := [] }

theorem gdv_first_match_witness :
    get_directive_values envT includeDef nodeD none = Except.ok none ∧
    get_directive_values envT skipDef nodeD none =
      (get_argument_values envT ⟨skipDef.args⟩ dirSkip none).map some := by
  constructor
  · exact (gdv_first_match envT includeDef nodeD none).1 (by decide)
  · exact (gdv_first_match envT skipDef nodeD none).2 [] dirSkip [] rfl
      (by decide) rfl

end Values
